import Mathlib

/-!
Verification of the core audio logic of the `web-music-player` repository
(a React/TypeScript audio player built on Howler.js).

The development shallowly embeds the playback sequencer, the reducer-based
player state, the transport operations, the Signal-Tap (audio analyser
attachment) state machine and the visualization drawing step, all translated
from `src/contexts/AudioContext.tsx` and the Waveform component.

Modelling conventions:
* JavaScript numbers holding track indices are embedded as `Int`
  (the sentinel value `-1` is in range); fractional quantities
  (times, volumes, pixel sizes) are embedded as `ℚ`.
* `Math.random()`-driven choices are embedded as an explicit choice function
  `rand : Nat → Nat`; the JS expression `Math.floor(Math.random() * (i + 1))`
  always lies in `[0, i]`, which theorems carry as the hypothesis
  `∀ i, rand i ≤ i`.
* React `dispatch` calls are embedded as applications of the reducer;
  mutable refs (the module-level Howl handle, the analyser refs) are
  threaded explicitly as state.
-/

namespace WebMusicPlayer

/-- Repeat mode, from `types/index.ts`: `'none' | 'one' | 'all'`. -/
inductive RepeatMode where
  | none
  | one
  | all
deriving DecidableEq, Repr

/-- JavaScript `Array.prototype.findIndex` with an equality predicate, as used
by `getNextTrackIndex` / `getPreviousTrackIndex`: the index of the first
occurrence of `target`, or `-1` when `target` does not occur. -/
def jsFindIndex (l : List Int) (target : Int) : Int :=
  match l.findIdx? (fun x => x == target) with
  | some i => (i : Int)
  | Option.none => -1

/-- Embedding of `getNextTrackIndex` (AudioContext.tsx, lines 107-135). -/
def getNextTrackIndex (currentIndex : Int) (playlistLength : Nat)
    (isShuffled : Bool) (shuffledIndices : List Int) (repeatMode : RepeatMode) : Int :=
  if playlistLength = 0 then -1
  else if isShuffled = true ∧ 0 < shuffledIndices.length then
    let currentShuffleIndex := jsFindIndex shuffledIndices currentIndex
    let nextShuffleIndex := currentShuffleIndex + 1
    if nextShuffleIndex < (shuffledIndices.length : Int) then
      shuffledIndices.getD nextShuffleIndex.toNat 0
    else if repeatMode = .all then
      shuffledIndices.getD 0 0
    else -1
  else
    let nextIndex := currentIndex + 1
    if nextIndex < (playlistLength : Int) then nextIndex
    else if repeatMode = .all then 0
    else -1

/-- Embedding of `getPreviousTrackIndex` (AudioContext.tsx, lines 137-162).
Note that unlike `getNextTrackIndex` it takes no repeat mode. -/
def getPreviousTrackIndex (currentIndex : Int) (playlistLength : Nat)
    (isShuffled : Bool) (shuffledIndices : List Int) : Int :=
  if playlistLength = 0 then -1
  else if isShuffled = true ∧ 0 < shuffledIndices.length then
    let currentShuffleIndex := jsFindIndex shuffledIndices currentIndex
    let prevShuffleIndex := currentShuffleIndex - 1
    if 0 ≤ prevShuffleIndex then
      shuffledIndices.getD prevShuffleIndex.toNat 0
    else
      shuffledIndices.getD (shuffledIndices.length - 1) 0
  else
    let prevIndex := currentIndex - 1
    if 0 ≤ prevIndex then prevIndex
    else (playlistLength : Int) - 1

/-- One iteration of the Fisher-Yates loop body of `generateShuffledIndices`
(AudioContext.tsx, lines 99-102): the destructuring assignment
`[indices[i], indices[j]] = [indices[j], indices[i]]` reads both old values
before writing, i.e. it swaps positions `i` and `j := rand i`. -/
def fyStep (rand : Nat → Nat) (l : List Int) (i : Nat) : List Int :=
  let j := rand i
  (l.set i (l.getD j 0)).set j (l.getD i 0)

/-- The Fisher-Yates `for` loop of `generateShuffledIndices`, counting the
loop variable down from `indices.length - 1` to `1` (the loop guard is
`i > 0`). -/
def fyLoop (rand : Nat → Nat) (l : List Int) : Nat → List Int
  | 0 => l
  | i + 1 => fyLoop rand (fyStep rand l (i + 1)) i

/-- Embedding of `generateShuffledIndices` (AudioContext.tsx, lines 91-105):
build `[0, …, playlistLength-1]`, `splice` out position `currentIndex` when
`currentIndex >= 0`, then Fisher-Yates shuffle the remainder. -/
def generateShuffledIndices (rand : Nat → Nat) (playlistLength : Nat)
    (currentIndex : Int) : List Int :=
  let indices := (List.range playlistLength).map Int.ofNat
  let spliced := if 0 ≤ currentIndex then indices.eraseIdx currentIndex.toNat else indices
  fyLoop rand spliced (spliced.length - 1)

/-- Embedding of the `Track` interface (types/index.ts). The optional `File`
blob carries no observable structure in the core logic, so it is embedded as
an `Option Unit` presence marker. -/
structure Track where
  id : String
  title : String
  artist : String
  duration : ℚ
  url : String
  file : Option Unit := Option.none
  format : Option String := Option.none
  albumArt : Option String := Option.none
deriving DecidableEq, Repr

instance : Inhabited Track :=
  ⟨{ id := "", title := "", artist := "", duration := 0, url := "" }⟩

/-- Embedding of the `AudioState` interface (types/index.ts). -/
structure AudioState where
  isPlaying : Bool
  currentTrack : Option Track
  currentTime : ℚ
  duration : ℚ
  volume : ℚ
  isLoading : Bool
  playlist : List Track
  currentIndex : Int
  isShuffled : Bool
  repeatMode : RepeatMode
  shuffledIndices : List Int
deriving DecidableEq, Repr

/-- Embedding of the `AudioAction` union type (AudioContext.tsx, lines 20-33). -/
inductive AudioAction where
  | setPlaying (payload : Bool)
  | setCurrentTrack (payload : Option Track)
  | setCurrentTime (payload : ℚ)
  | setDuration (payload : ℚ)
  | setVolume (payload : ℚ)
  | setLoading (payload : Bool)
  | setPlaylist (payload : List Track)
  | addToPlaylist (payload : List Track)
  | removeFromPlaylist (payload : String)
  | setCurrentIndex (payload : Int)
  | toggleShuffle
  | setRepeatMode (payload : RepeatMode)
  | setShuffledIndices (payload : List Int)
deriving Repr

/-- Embedding of the `initialState` constant (AudioContext.tsx, lines 35-47). -/
def initialState : AudioState :=
  { isPlaying := false
    currentTrack := Option.none
    currentTime := 0
    duration := 0
    volume := 8/10
    isLoading := false
    playlist := []
    currentIndex := -1
    isShuffled := false
    repeatMode := .none
    shuffledIndices := [] }

/-- Embedding of `audioReducer` (AudioContext.tsx, lines 49-89). The `rand`
choice function stands for the `Math.random()` samples consumed by
`generateShuffledIndices` in the `TOGGLE_SHUFFLE` case. -/
def audioReducer (rand : Nat → Nat) (state : AudioState) : AudioAction → AudioState
  | .setPlaying p => { state with isPlaying := p }
  | .setCurrentTrack p => { state with currentTrack := p }
  | .setCurrentTime p => { state with currentTime := p }
  | .setDuration p => { state with duration := p }
  | .setVolume p => { state with volume := p }
  | .setLoading p => { state with isLoading := p }
  | .setPlaylist p => { state with playlist := p }
  | .addToPlaylist p => { state with playlist := state.playlist ++ p }
  | .removeFromPlaylist p =>
      { state with playlist := state.playlist.filter (fun track => track.id != p) }
  | .setCurrentIndex p => { state with currentIndex := p }
  | .toggleShuffle =>
      { state with
        isShuffled := !state.isShuffled
        shuffledIndices :=
          if !state.isShuffled then
            generateShuffledIndices rand state.playlist.length state.currentIndex
          else [] }
  | .setRepeatMode p => { state with repeatMode := p }
  | .setShuffledIndices p => { state with shuffledIndices := p }

/-- Model of the live Howler.js `Howl` resource handle as observed through the
API surface this component uses: its source, its format hint, its volume
setting and its playback position. -/
structure Howl where
  src : String
  format : Option String
  volume : ℚ
  pos : ℚ
deriving DecidableEq, Repr

/-- JavaScript coalescing `x || 0` applied to an optional numeric query result
(used for `currentHowl?.duration() || 0`): an absent value or the falsy `0`
both collapse to `0`. -/
def jsNumOrZero (x : Option ℚ) : ℚ :=
  match x with
  | some v => if v = 0 then 0 else v
  | Option.none => 0

/-- JavaScript `findIndex` over the playlist with an id-equality predicate, as
used by `playTrack` (`state.playlist.findIndex(t => t.id === track.id)`). -/
def jsFindIndexById (l : List Track) (trackId : String) : Int :=
  match l.findIdx? (fun t => t.id == trackId) with
  | some i => (i : Int)
  | Option.none => -1

/-- Embedding of the dispatch sequence and Howl construction of `playTrack`
(AudioContext.tsx, lines 171-219). `closure` is the provider state captured by
the `useCallback` closure (used for the reads of `state.playlist` and
`state.volume`); `s` is the store state the dispatches are applied to; the
previous Howl handle, if any, is unloaded and replaced. -/
def playTrack (rand : Nat → Nat) (closure s : AudioState) (track : Track) :
    AudioState × Option Howl :=
  let s1 := audioReducer rand s (.setLoading true)
  let s2 := audioReducer rand s1 (.setCurrentTrack (some track))
  let trackIndex := jsFindIndexById closure.playlist track.id
  let s3 := audioReducer rand s2 (.setCurrentIndex trackIndex)
  (s3, some { src := track.url, format := track.format, volume := closure.volume, pos := 0 })

/-- Embedding of the `onload` callback registered by `playTrack`
(AudioContext.tsx, lines 186-189): dispatch the duration query result
coalesced with `|| 0`, then clear the loading flag. The callback is a total
state transformer: no code path can throw out of the component. -/
def onloadCallback (rand : Nat → Nat) (s : AudioState) (durationQuery : Option ℚ) :
    AudioState :=
  let s1 := audioReducer rand s (.setDuration (jsNumOrZero durationQuery))
  audioReducer rand s1 (.setLoading false)

/-- Embedding of the `onplay` callback (AudioContext.tsx, lines 190-192). -/
def onplayCallback (rand : Nat → Nat) (s : AudioState) : AudioState :=
  audioReducer rand s (.setPlaying true)

/-- Embedding of the `onpause` callback (AudioContext.tsx, lines 193-195). -/
def onpauseCallback (rand : Nat → Nat) (s : AudioState) : AudioState :=
  audioReducer rand s (.setPlaying false)

/-- Embedding of the `onstop` callback (AudioContext.tsx, lines 212-214). -/
def onstopCallback (rand : Nat → Nat) (s : AudioState) : AudioState :=
  audioReducer rand s (.setPlaying false)

/-- Embedding of the `onend` callback (AudioContext.tsx, lines 196-211):
clear the playing flag, then auto-advance — repeat `one` replays the same
track directly, otherwise the sequencer picks the next index. -/
def onendCallback (rand : Nat → Nat) (closure s : AudioState) (track : Track) :
    AudioState × Option Howl :=
  let s1 := audioReducer rand s (.setPlaying false)
  let currentIndex := jsFindIndexById closure.playlist track.id
  if closure.repeatMode = .one then
    playTrack rand closure s1 track
  else
    let nextIndex := getNextTrackIndex currentIndex closure.playlist.length
      closure.isShuffled closure.shuffledIndices closure.repeatMode
    if nextIndex ≠ -1 then
      playTrack rand closure s1 (closure.playlist.getD nextIndex.toNat default)
    else (s1, Option.none)

/-- Modelled from the spec: the delivery of a resource-creation failure by the
external playback-resource provider (Howler.js, which is not part of this
repository's sources). Per §4.1 of the spec, a bad or unsupported source
surfaces to this component as the terminal `loaded` lifecycle callback whose
duration query yields no usable value. -/
def loadFailureDurationQuery : Option ℚ := Option.none

/-- Embedding of `setVolume` (AudioContext.tsx, lines 258-263): dispatch the
raw value into the store, then apply the same raw value to the live Howl
handle when one exists. -/
def setVolume (rand : Nat → Nat) (s : AudioState) (h : Option Howl) (v : ℚ) :
    AudioState × Option Howl :=
  let s1 := audioReducer rand s (.setVolume v)
  match h with
  | some hw => (s1, some { hw with volume := v })
  | Option.none => (s1, Option.none)

/-- Embedding of `seekTo` (AudioContext.tsx, lines 265-270): when a live Howl
handle exists, delegate the position change to it and dispatch the same value
as the new displayed current time; otherwise do nothing. -/
def seekTo (rand : Nat → Nat) (s : AudioState) (h : Option Howl) (t : ℚ) :
    AudioState × Option Howl :=
  match h with
  | some hw => (audioReducer rand s (.setCurrentTime t), some { hw with pos := t })
  | Option.none => (s, Option.none)

/-- Embedding of one `updateTime` step of the position-polling effect
(AudioContext.tsx, lines 296-306): while a Howl handle exists and playback is
on, a timestamp gate of 250 milliseconds throttles republishing the resource
position into the displayed current time. -/
def updateTime (rand : Nat → Nat) (s : AudioState) (h : Option Howl)
    (timestamp lastUpdateTime : ℚ) : AudioState :=
  match h with
  | some hw =>
      if s.isPlaying = true then
        if 250 ≤ timestamp - lastUpdateTime then
          audioReducer rand s (.setCurrentTime hw.pos)
        else s
      else s
  | Option.none => s

/-- Embedding of `removeFromPlaylist` (AudioContext.tsx, lines 276-278): a
single `REMOVE_FROM_PLAYLIST` dispatch. -/
def removeFromPlaylist (rand : Nat → Nat) (s : AudioState) (trackId : String) :
    AudioState :=
  audioReducer rand s (.removeFromPlaylist trackId)

/-- Model of the underlying `HTMLAudioElement` of a Howl as the Waveform
component observes and mutates it: decode readiness, the ad-hoc
`data-connected` attribute marker and the stashed `audioSourceNode`
reference. -/
structure MediaElem where
  readyState : Nat
  dataConnected : Bool
  audioSourceNode : Option Nat
deriving DecidableEq, Repr

/-- State of the Signal-Tap refs of the Waveform component
(Waveform source, lines 15-24), with Web-Audio objects identified by ids and
explicit counters for every node-creating call — `new AudioContext()`,
`createAnalyser()` and `createMediaElementSource()`. Live Howl sessions are
identified by ids; `elems` maps a session id to its media element when
Howler exposes one. -/
structure TapState where
  audioCtx : Option Nat
  analyser : Option Nat
  dataArray : Option Nat
  sourceNode : Option Nat
  connectedHowl : Option Nat
  elems : Nat → Option MediaElem
  createdContexts : Nat
  createdAnalysers : Nat
  createdSources : Nat

/-- Environment of one `setupAudioAnalyser` call: which of the external
Web-Audio operations fail by throwing. -/
structure TapEnv where
  ctxCreationFails : Bool
  resumeFails : Bool
  createSourceFails : Bool
  connectFails : Bool
deriving DecidableEq, Repr

/-- Pointwise update of the media-element map at one session id. -/
def updateElem (f : Nat → Option MediaElem) (k : Nat) (e : MediaElem) :
    Nat → Option MediaElem :=
  fun n => if n = k then some e else f n

/-- Embedding of `setupAudioAnalyser` (Waveform component, lines 30-158),
with the current Howl session id passed as `howl` (`none` when
`getCurrentHowl()` returns null). Returns the boolean result together with
the updated ref state. Control flow is kept branch-for-branch: early
`return false` paths keep whatever mutations already happened, thrown
external failures are caught and turned into `false`, and connect failures
are swallowed without affecting the result. -/
def setupAudioAnalyser (env : TapEnv) (st : TapState) (howl : Option Nat) :
    Bool × TapState :=
  match howl with
  | Option.none => (false, st)
  | some h =>
    if st.connectedHowl = some h ∧ st.analyser.isSome ∧ st.sourceNode.isSome then
      (true, st)
    else
      match (if st.audioCtx.isNone then
               (if env.ctxCreationFails then Option.none
                else some { st with audioCtx := some st.createdContexts,
                                    createdContexts := st.createdContexts + 1 })
             else some st) with
      | Option.none => (false, st)
      | some st1 =>
        if env.resumeFails then (false, st1)
        else
          let st2 := { st1 with sourceNode := Option.none }
          let st3 :=
            match st2.connectedHowl with
            | some prev =>
              if prev ≠ h then
                match st2.elems prev with
                | some e =>
                    { st2 with elems := updateElem st2.elems prev { e with dataConnected := false, audioSourceNode := Option.none } }
                | Option.none => st2
              else st2
            | Option.none => st2
          let st4 :=
            if st3.analyser.isNone then
              { st3 with analyser := some st3.createdAnalysers,
                         dataArray := some 256,
                         createdAnalysers := st3.createdAnalysers + 1 }
            else st3
          match st4.elems h with
          | some node =>
            if st4.connectedHowl = some h ∧ node.dataConnected = true ∧ st4.sourceNode.isSome then
              (true, st4)
            else
              let node1 := { node with dataConnected := false, audioSourceNode := Option.none }
              let st5 := { st4 with elems := updateElem st4.elems h node1 }
              if 2 ≤ node1.readyState then
                match node1.audioSourceNode with
                | some sid =>
                  let st6 := { st5 with sourceNode := some sid }
                  let node2 := { node1 with dataConnected := true }
                  (true, { st6 with elems := updateElem st6.elems h node2,
                                    connectedHowl := some h })
                | Option.none =>
                  if env.createSourceFails then (false, st5)
                  else
                    let sid := st5.createdSources
                    let node2 := { node1 with audioSourceNode := some sid }
                    let st6 := { st5 with sourceNode := some sid,
                                          elems := updateElem st5.elems h node2,
                                          createdSources := st5.createdSources + 1 }
                    let node3 := { node2 with dataConnected := true }
                    (true, { st6 with elems := updateElem st6.elems h node3,
                                      connectedHowl := some h })
              else
                (false, { st5 with connectedHowl := some h })
          | Option.none => (false, st4)

/-- Model of the fixed-size canvas element of the Waveform component. -/
structure Canvas where
  width : ℚ
  height : ℚ
deriving DecidableEq, Repr

/-- One rendered vertical bar: left edge, width and height in canvas units. -/
structure BarRect where
  x : ℚ
  w : ℚ
  h : ℚ
deriving DecidableEq, Repr

instance : Inhabited BarRect := ⟨{ x := 0, w := 0, h := 0 }⟩

/-- State of the refs read by one visualization step: the canvas (and whether
a 2d draw context is obtainable from it) and the three analysis refs whose
joint presence selects the real-data path. -/
structure DrawState where
  canvas : Option Canvas
  ctx2d : Bool
  analyser : Option Nat
  dataArray : Option (List Nat)
  sourceNode : Option Nat

/-- Embedding of `drawFrequencyBars` (Waveform component, lines 163-256),
returning the list of bars painted by one step, or `none` when the step
silently skips because no canvas or draw context is available. `osc` stands
for the `Math.sin` oscillator of the synthetic fallback; `now` models
`Date.now()`. Frequency-buffer entries are byte magnitudes `0..255`. -/
def drawFrequencyBars (osc : ℚ → ℚ) (st : DrawState) (now : ℚ) :
    Option (List BarRect) :=
  match st.canvas with
  | Option.none => Option.none
  | some canvas =>
    if st.ctx2d = false then Option.none
    else
      let hasRealAudioData := st.analyser.isSome && st.dataArray.isSome && st.sourceNode.isSome
      let barCount : Nat := 96
      let barSpacing : ℚ := 2
      let barWidth : ℚ := (canvas.width - ((barCount : ℚ) - 1) * barSpacing) / (barCount : ℚ)
      if hasRealAudioData = true then
        let data := st.dataArray.getD []
        let dataStep : Nat := data.length / barCount
        some (List.ofFn fun i : Fin barCount =>
          let dataIndex := i.val * dataStep
          let normalizedValue : ℚ := (data.getD dataIndex 0 : ℚ) / 255
          let barHeight := normalizedValue * canvas.height * (85/100)
          { x := (i.val : ℚ) * (barWidth + barSpacing), w := barWidth, h := barHeight })
      else
        let time := now * (3/1000)
        some (List.ofFn fun i : Fin barCount =>
          let wave := osc (time + (i.val : ℚ) * (3/10)) * (1/2) + 1/2
          let barHeight := wave * canvas.height * (2/5)
          { x := (i.val : ℚ) * (barWidth + barSpacing), w := barWidth, h := barHeight })

end WebMusicPlayer

namespace WebMusicPlayer

/-! ## Helper lemmas about the embedded operations -/

theorem findIdx?_some_bounds {α : Type} (p : α → Bool) :
    ∀ (l : List α) (s k : Nat), l.findIdx? p s = some k → s ≤ k ∧ k < s + l.length := by
  intro l
  induction l with
  | nil => intro s k h; simp [List.findIdx?] at h
  | cons a t ih =>
    intro s k h
    rw [List.findIdx?_cons] at h
    by_cases hp : p a = true
    · rw [if_pos hp] at h
      cases h
      simp
    · rw [if_neg hp] at h
      have := ih (s + 1) k h
      constructor
      · omega
      · simp only [List.length_cons]
        omega

theorem jsFindIndex_eq_of_some (order : List Int) (cur : Int) (k : Nat)
    (hk : order.findIdx? (fun x => x == cur) = some k) :
    jsFindIndex order cur = (k : Int) := by
  unfold jsFindIndex
  rw [hk]

theorem jsFindIndex_eq_of_none (order : List Int) (cur : Int)
    (hk : order.findIdx? (fun x => x == cur) = Option.none) :
    jsFindIndex order cur = -1 := by
  unfold jsFindIndex
  rw [hk]

theorem getD_mem (l : List Int) (i : Nat) (h : i < l.length) : l.getD i 0 ∈ l := by
  rw [List.getD_eq_getElem l 0 h]
  exact List.getElem_mem h

theorem getNextTrackIndex_shuffled (cur : Int) (n : Nat) (order : List Int)
    (rm : RepeatMode) (hn : n ≠ 0) (hne : order ≠ []) :
    getNextTrackIndex cur n true order rm =
      (if jsFindIndex order cur + 1 < (order.length : Int) then
         order.getD (jsFindIndex order cur + 1).toNat 0
       else if rm = .all then order.getD 0 0 else -1) := by
  unfold getNextTrackIndex
  rw [if_neg hn, if_pos ⟨rfl, List.length_pos.mpr hne⟩]

theorem getNextTrackIndex_plain (cur : Int) (n : Nat) (order : List Int)
    (rm : RepeatMode) (hn : n ≠ 0) :
    getNextTrackIndex cur n false order rm =
      (if cur + 1 < (n : Int) then cur + 1
       else if rm = .all then 0 else -1) := by
  unfold getNextTrackIndex
  rw [if_neg hn, if_neg (by simp)]

theorem getPreviousTrackIndex_shuffled (cur : Int) (n : Nat) (order : List Int)
    (hn : n ≠ 0) (hne : order ≠ []) :
    getPreviousTrackIndex cur n true order =
      (if 0 ≤ jsFindIndex order cur - 1 then
         order.getD (jsFindIndex order cur - 1).toNat 0
       else order.getD (order.length - 1) 0) := by
  unfold getPreviousTrackIndex
  rw [if_neg hn, if_pos ⟨rfl, List.length_pos.mpr hne⟩]

theorem getPreviousTrackIndex_plain (cur : Int) (n : Nat) (order : List Int)
    (hn : n ≠ 0) :
    getPreviousTrackIndex cur n false order =
      (if 0 ≤ cur - 1 then cur - 1 else (n : Int) - 1) := by
  unfold getPreviousTrackIndex
  rw [if_neg hn, if_neg (by simp)]

/-! ## C1: the sequencer's next-index decision -/

/-- C1: for every call of `getNextTrackIndex`: a length-0 playlist yields
`-1`; in shuffle mode with a non-empty shuffle order the result is the entry
one position after the current index's position in the order (wrapping to the
first entry only under repeat `all`, and `-1` otherwise, when that position
runs past the end); out of shuffle mode the result is `current + 1` while in
range, else `0` under repeat `all`, else `-1`. -/
theorem nextIndex_cases (cur : Int) (n : Nat) (sh : Bool) (order : List Int)
    (rm : RepeatMode) :
    (n = 0 → getNextTrackIndex cur n sh order rm = -1) ∧
    (n ≠ 0 → sh = true → order ≠ [] →
      (∀ k : Nat, order.findIdx? (fun x => x == cur) = some k →
        (k + 1 < order.length → getNextTrackIndex cur n sh order rm = order.getD (k + 1) 0) ∧
        (order.length ≤ k + 1 →
          (rm = .all → getNextTrackIndex cur n sh order rm = order.getD 0 0) ∧
          (rm ≠ .all → getNextTrackIndex cur n sh order rm = -1))) ∧
      (order.findIdx? (fun x => x == cur) = Option.none →
        getNextTrackIndex cur n sh order rm = order.getD 0 0)) ∧
    (n ≠ 0 → sh = false →
      (cur + 1 < (n : Int) → getNextTrackIndex cur n sh order rm = cur + 1) ∧
      ((n : Int) ≤ cur + 1 →
        (rm = .all → getNextTrackIndex cur n sh order rm = 0) ∧
        (rm ≠ .all → getNextTrackIndex cur n sh order rm = -1))) := by
  refine ⟨?_, ?_, ?_⟩
  · intro h
    unfold getNextTrackIndex
    rw [if_pos h]
  · intro hn hsh hne
    subst hsh
    constructor
    · intro k hk
      rw [getNextTrackIndex_shuffled cur n order rm hn hne] at *
      rw [jsFindIndex_eq_of_some order cur k hk]
      constructor
      · intro hlt
        rw [if_pos (by exact_mod_cast hlt)]
        have harg : ((k : Int) + 1).toNat = k + 1 := by omega
        rw [harg]
      · intro hge
        rw [if_neg (by omega)]
        exact ⟨fun h => by rw [if_pos h], fun h => by rw [if_neg h]⟩
    · intro hk
      rw [getNextTrackIndex_shuffled cur n order rm hn hne]
      rw [jsFindIndex_eq_of_none order cur hk]
      have hl : 0 < order.length := List.length_pos.mpr hne
      rw [if_pos (by omega)]
      norm_num
  · intro hn hsh
    subst hsh
    rw [getNextTrackIndex_plain cur n order rm hn]
    constructor
    · intro hlt
      rw [if_pos hlt]
    · intro hge
      rw [if_neg (by omega)]
      exact ⟨fun h => by rw [if_pos h], fun h => by rw [if_neg h]⟩

/-- C1 witness: concrete instances of every branch of `nextIndex_cases`. -/
theorem nextIndex_cases_witness :
    getNextTrackIndex 0 0 false [] RepeatMode.none = -1 ∧
    getNextTrackIndex 0 3 true [2, 0] RepeatMode.none = -1 ∧
    getNextTrackIndex 2 3 true [2, 0] RepeatMode.none = 0 ∧
    getNextTrackIndex 1 3 false [] RepeatMode.none = 2 ∧
    getNextTrackIndex 2 3 false [] RepeatMode.all = 0 := by
  refine ⟨?_, ?_, ?_, ?_, ?_⟩
  · exact (nextIndex_cases 0 0 false [] .none).1 rfl
  · exact (((nextIndex_cases 0 3 true [2, 0] .none).2.1 (by decide) rfl (by decide)).1 1
      (by rfl)).2 (by decide) |>.2 (by decide)
  · exact (((nextIndex_cases 2 3 true [2, 0] .none).2.1 (by decide) rfl (by decide)).1 0
      (by rfl)).1 (by decide)
  · exact ((nextIndex_cases 1 3 false [] .none).2.2 (by decide) rfl).1 (by decide)
  · exact (((nextIndex_cases 2 3 false [] .all).2.2 (by decide) rfl).2 (by decide)).1 rfl

/-! ## C9: next-index when the current track is absent from the order -/

/-- C9: with shuffle on, a non-empty shuffle order not containing the current
index (the normal state right after toggling shuffle on, since the generated
order excludes the current index), the next index is the first entry of the
order, for every repeat mode: the position search yields `-1` and advancing
gives position `0`. -/
theorem nextIndex_fresh_shuffle (cur : Int) (n : Nat) (order : List Int)
    (rm : RepeatMode) (hn : n ≠ 0) (hne : order ≠ []) (hmem : cur ∉ order) :
    getNextTrackIndex cur n true order rm = order.getD 0 0 := by
  have hfi : order.findIdx? (fun x => x == cur) = Option.none := by
    rw [List.findIdx?_eq_none_iff]
    intro x hx
    exact beq_eq_false_iff_ne.mpr (fun e => hmem (e ▸ hx))
  exact ((nextIndex_cases cur n true order rm).2.1 hn rfl hne).2 hfi

/-- C9 witness: a fresh shuffle order `[2, 0]` with current index `1` steps to
its first entry under every repeat mode. -/
theorem nextIndex_fresh_shuffle_witness :
    getNextTrackIndex 1 3 true [2, 0] RepeatMode.none = 2 ∧
    getNextTrackIndex 1 3 true [2, 0] RepeatMode.all = 2 ∧
    getNextTrackIndex 1 3 true [2, 0] RepeatMode.one = 2 := by
  refine ⟨?_, ?_, ?_⟩
  · exact nextIndex_fresh_shuffle 1 3 [2, 0] .none (by decide) (by decide) (by decide)
  · exact nextIndex_fresh_shuffle 1 3 [2, 0] .all (by decide) (by decide) (by decide)
  · exact nextIndex_fresh_shuffle 1 3 [2, 0] .one (by decide) (by decide) (by decide)

end WebMusicPlayer

namespace WebMusicPlayer

/-! ## C3: the previous-index decision always wraps -/

/-- C3: for a non-empty playlist `getPreviousTrackIndex` always wraps and
never signals no-previous: out of shuffle mode, current index `0` yields
`length - 1`; in shuffle mode with a non-empty order, when the position one
before the current one falls before the start of the order the result is the
last entry of the order; and whenever the order holds only valid (nonnegative)
indices the result is never `-1` — independent of repeat mode, which the
function does not even consume. -/
theorem previousIndex_always_wraps (cur : Int) (n : Nat) (sh : Bool) (order : List Int) :
    (n ≠ 0 → sh = false → cur = 0 → getPreviousTrackIndex cur n sh order = (n : Int) - 1) ∧
    (n ≠ 0 → sh = true → order ≠ [] →
      (order.findIdx? (fun x => x == cur) = Option.none ∨
       order.findIdx? (fun x => x == cur) = some 0) →
      getPreviousTrackIndex cur n sh order = order.getD (order.length - 1) 0) ∧
    (n ≠ 0 → (∀ x ∈ order, 0 ≤ x) → getPreviousTrackIndex cur n sh order ≠ -1) := by
  refine ⟨?_, ?_, ?_⟩
  · intro hn hsh hc
    subst hsh; subst hc
    rw [getPreviousTrackIndex_plain 0 n order hn]
    rw [if_neg (by omega)]
  · intro hn hsh hne hfi
    subst hsh
    rw [getPreviousTrackIndex_shuffled cur n order hn hne]
    rcases hfi with hfi | hfi
    · rw [jsFindIndex_eq_of_none order cur hfi, if_neg (by omega)]
    · rw [jsFindIndex_eq_of_some order cur 0 hfi, if_neg (by omega)]
  · intro hn hpos
    by_cases hg : sh = true ∧ 0 < order.length
    · obtain ⟨hs, hl⟩ := hg
      subst hs
      have hne : order ≠ [] := List.length_pos.mp hl
      rw [getPreviousTrackIndex_shuffled cur n order hn hne]
      by_cases hp : 0 ≤ jsFindIndex order cur - 1
      · rw [if_pos hp]
        cases hfi : order.findIdx? (fun x => x == cur) with
        | none =>
          rw [jsFindIndex_eq_of_none order cur hfi] at hp
          omega
        | some k =>
          have hb := (findIdx?_some_bounds _ order 0 k hfi).2
          rw [jsFindIndex_eq_of_some order cur k hfi] at hp ⊢
          have hidx : ((k : Int) - 1).toNat < order.length := by omega
          have hmem := getD_mem order _ hidx
          have := hpos _ hmem
          omega
      · rw [if_neg hp]
        have hidx : order.length - 1 < order.length := by omega
        have hmem := getD_mem order _ hidx
        have := hpos _ hmem
        omega
    · unfold getPreviousTrackIndex
      rw [if_neg hn, if_neg hg]
      show (if 0 ≤ cur - 1 then cur - 1 else (n : Int) - 1) ≠ -1
      split_ifs with h <;> omega

/-- C3 witness: wrap from index 0 out of shuffle, wrap to the last order
entry in shuffle mode, and a concrete non-`-1` result. -/
theorem previousIndex_always_wraps_witness :
    getPreviousTrackIndex 0 3 false [] = 2 ∧
    getPreviousTrackIndex 2 3 true [2, 0] = 0 ∧
    getPreviousTrackIndex 5 3 true [2, 0] ≠ -1 := by
  refine ⟨?_, ?_, ?_⟩
  · exact (previousIndex_always_wraps 0 3 false []).1 (by decide) rfl rfl
  · exact (previousIndex_always_wraps 2 3 true [2, 0]).2.1 (by decide) rfl (by decide)
      (Or.inr (by rfl))
  · exact (previousIndex_always_wraps 5 3 true [2, 0]).2.2 (by decide) (by decide)

end WebMusicPlayer

namespace WebMusicPlayer

/-! ## Permutation facts about the Fisher-Yates shuffle -/

theorem getD_set_cons_perm : ∀ (t : List Int) (m : Nat) (a d : Int), m < t.length →
    (t.getD m d :: t.set m a).Perm (a :: t) := by
  intro t
  induction t with
  | nil => intro m a d h; simp at h
  | cons b u ih =>
    intro m a d h
    cases m with
    | zero =>
      simp only [List.getD_cons_zero, List.set_cons_zero]
      exact List.Perm.swap a b u
    | succ k =>
      simp only [List.getD_cons_succ, List.set_cons_succ]
      exact (List.Perm.swap b (u.getD k d) (u.set k a)).trans
        (((ih k a d (by simpa using h)).cons b).trans (List.Perm.swap a b u))

theorem set_set_swap_perm : ∀ (l : List Int) (i j : Nat) (d : Int),
    i < l.length → j < l.length →
    ((l.set i (l.getD j d)).set j (l.getD i d)).Perm l := by
  intro l
  induction l with
  | nil => intro i j d hi _; simp at hi
  | cons a t ih =>
    intro i j d hi hj
    cases i with
    | zero =>
      cases j with
      | zero =>
        simp only [List.getD_cons_zero, List.set_cons_zero]
        exact List.Perm.refl _
      | succ m =>
        simp only [List.getD_cons_zero, List.getD_cons_succ, List.set_cons_zero,
          List.set_cons_succ]
        exact getD_set_cons_perm t m a d (by simpa using hj)
    | succ k =>
      cases j with
      | zero =>
        simp only [List.getD_cons_zero, List.getD_cons_succ, List.set_cons_zero,
          List.set_cons_succ]
        exact getD_set_cons_perm t k a d (by simpa using hi)
      | succ m =>
        simp only [List.getD_cons_succ, List.set_cons_succ]
        exact (ih k m d (by simpa using hi) (by simpa using hj)).cons a

theorem fyStep_length (rand : Nat → Nat) (l : List Int) (i : Nat) :
    (fyStep rand l i).length = l.length := by
  simp [fyStep]

theorem fyStep_perm (rand : Nat → Nat) (l : List Int) (i : Nat)
    (hi : i < l.length) (hj : rand i ≤ i) : (fyStep rand l i).Perm l :=
  set_set_swap_perm l i (rand i) 0 hi (by omega)

theorem fyLoop_perm (rand : Nat → Nat) (hrand : ∀ i, rand i ≤ i) :
    ∀ (k : Nat) (l : List Int), k < l.length → (fyLoop rand l k).Perm l := by
  intro k
  induction k with
  | zero => intro l _; exact List.Perm.refl l
  | succ k ih =>
    intro l hk
    have h1 : (fyStep rand l (k + 1)).Perm l := fyStep_perm rand l (k + 1) hk (hrand (k + 1))
    have h2 : (fyLoop rand (fyStep rand l (k + 1)) k).Perm (fyStep rand l (k + 1)) :=
      ih _ (by rw [fyStep_length]; omega)
    exact h2.trans h1

theorem fyLoop_pred_perm (rand : Nat → Nat) (hrand : ∀ i, rand i ≤ i) (l : List Int) :
    (fyLoop rand l (l.length - 1)).Perm l := by
  cases l with
  | nil => exact List.Perm.refl _
  | cons a t =>
    exact fyLoop_perm rand hrand t.length (a :: t) (by simp)

theorem generateShuffledIndices_perm (rand : Nat → Nat) (hrand : ∀ i, rand i ≤ i)
    (n : Nat) (c : Int) :
    (generateShuffledIndices rand n c).Perm
      (if 0 ≤ c then ((List.range n).map Int.ofNat).eraseIdx c.toNat
       else (List.range n).map Int.ofNat) := by
  unfold generateShuffledIndices
  exact fyLoop_pred_perm rand hrand _

/-! ## The spliced index list is the index set minus the current index -/

theorem eraseIdx_append_length {α : Type} : ∀ (A : List α) (a : α) (B : List α),
    (A ++ a :: B).eraseIdx A.length = A ++ B := by
  intro A
  induction A with
  | nil => intro a B; rfl
  | cons x A ih =>
    intro a B
    simp only [List.cons_append, List.length_cons, List.eraseIdx_cons_succ, ih]

theorem range_map_decomp (n c : Nat) (hc : c < n) :
    (List.range n).map Int.ofNat =
      (List.range' 0 c).map Int.ofNat ++
        Int.ofNat c :: (List.range' (c + 1) (n - (c + 1))).map Int.ofNat := by
  rw [List.range_eq_range']
  have h1 := List.range'_append 0 c (n - c) 1
  simp only [Nat.zero_add, Nat.one_mul] at h1
  rw [Nat.sub_add_cancel (le_of_lt hc)] at h1
  rw [← h1]
  have h2 : n - c = (n - (c + 1)) + 1 := by omega
  rw [h2, List.range'_succ]
  simp [List.map_append]

theorem spliced_eq (n c : Nat) (hc : c < n) :
    ((List.range n).map Int.ofNat).eraseIdx c =
      (List.range' 0 c).map Int.ofNat ++ (List.range' (c + 1) (n - (c + 1))).map Int.ofNat := by
  have he := eraseIdx_append_length ((List.range' 0 c).map Int.ofNat) (Int.ofNat c)
    ((List.range' (c + 1) (n - (c + 1))).map Int.ofNat)
  have hlen : ((List.range' 0 c).map Int.ofNat).length = c := by simp
  rw [hlen] at he
  rw [range_map_decomp n c hc, he]

theorem mem_spliced_iff (n c : Nat) (hc : c < n) (x : Int) :
    x ∈ ((List.range n).map Int.ofNat).eraseIdx c ↔
      0 ≤ x ∧ x < (n : Int) ∧ x ≠ (c : Int) := by
  rw [spliced_eq n c hc]
  simp only [List.mem_append, List.mem_map, List.mem_range'_1, Int.ofNat_eq_coe]
  constructor
  · rintro (⟨m, ⟨hm0, hmc⟩, rfl⟩ | ⟨m, ⟨hm1, hm2⟩, rfl⟩)
    · exact ⟨by omega, by omega, by omega⟩
    · exact ⟨by omega, by omega, by omega⟩
  · rintro ⟨h0, hn, hne⟩
    have hcase : x.toNat < c ∨ c + 1 ≤ x.toNat := by omega
    rcases hcase with hcase | hcase
    · exact Or.inl ⟨x.toNat, ⟨by omega, by omega⟩, by omega⟩
    · exact Or.inr ⟨x.toNat, ⟨by omega, by omega⟩, by omega⟩

theorem nodup_spliced (n c : Nat) :
    (((List.range n).map Int.ofNat).eraseIdx c).Nodup :=
  (List.eraseIdx_sublist _ c).nodup
    (List.Nodup.map Int.ofNat_injective (List.nodup_range n))

end WebMusicPlayer

namespace WebMusicPlayer

/-! ## C2: toggling shuffle -/

/-- C2: from a shuffle-off state whose current index `c` is a valid playlist
position, dispatching `TOGGLE_SHUFFLE` turns shuffle on with a
`shuffledIndices` that is a permutation of the index set `{0..N-1}` minus `c`
(length `N - 1`, not containing `c`, duplicate-free, containing exactly the
other valid indices), and dispatching `TOGGLE_SHUFFLE` again with no playlist
mutation in between turns shuffle off with an empty order. -/
theorem toggleShuffle_spec (rand : Nat → Nat) (s : AudioState) (c : Nat)
    (hrand : ∀ i, rand i ≤ i)
    (hoff : s.isShuffled = false)
    (hc : s.currentIndex = (c : Int))
    (hcN : c < s.playlist.length) :
    ((audioReducer rand s .toggleShuffle).isShuffled = true ∧
     (audioReducer rand s .toggleShuffle).shuffledIndices.length = s.playlist.length - 1 ∧
     (c : Int) ∉ (audioReducer rand s .toggleShuffle).shuffledIndices ∧
     (audioReducer rand s .toggleShuffle).shuffledIndices.Nodup ∧
     (∀ x : Int, x ∈ (audioReducer rand s .toggleShuffle).shuffledIndices ↔
        0 ≤ x ∧ x < (s.playlist.length : Int) ∧ x ≠ (c : Int))) ∧
    ((audioReducer rand (audioReducer rand s .toggleShuffle) .toggleShuffle).isShuffled
        = false ∧
     (audioReducer rand (audioReducer rand s .toggleShuffle) .toggleShuffle).shuffledIndices
        = []) := by
  have h1 : (audioReducer rand s .toggleShuffle).isShuffled = true := by
    simp [audioReducer, hoff]
  have h2 : (audioReducer rand s .toggleShuffle).shuffledIndices =
      generateShuffledIndices rand s.playlist.length s.currentIndex := by
    simp [audioReducer, hoff]
  have hperm := generateShuffledIndices_perm rand hrand s.playlist.length s.currentIndex
  rw [hc, if_pos (by omega : (0 : Int) ≤ (c : Int))] at hperm
  have htn : ((c : Int)).toNat = c := by omega
  rw [htn] at hperm
  have hmem : ∀ x : Int, x ∈ (audioReducer rand s .toggleShuffle).shuffledIndices ↔
      0 ≤ x ∧ x < (s.playlist.length : Int) ∧ x ≠ (c : Int) := by
    intro x
    rw [h2, hc]
    exact (hperm.mem_iff).trans (mem_spliced_iff s.playlist.length c hcN x)
  refine ⟨⟨h1, ?_, ?_, ?_, hmem⟩, ?_, ?_⟩
  · rw [h2, hc, hperm.length_eq, List.length_eraseIdx]
    simp [hcN]
  · intro hin
    exact ((hmem _).mp hin).2.2 rfl
  · rw [h2, hc]
    exact hperm.nodup_iff.mpr (nodup_spliced s.playlist.length c)
  · simp [audioReducer, hoff]
  · simp [audioReducer, hoff]

/-- C2 witness: a three-track playlist with current index 1 and the constant
choice function: after one toggle shuffle is on and the order omits index 1;
after a second toggle shuffle is off with an empty order. -/
theorem toggleShuffle_spec_witness :
    (audioReducer (fun _ => 0) { initialState with playlist := List.replicate 3 default, currentIndex := 1 } .toggleShuffle).isShuffled = true ∧
    ((1 : Nat) : Int) ∉ (audioReducer (fun _ => 0) { initialState with playlist := List.replicate 3 default, currentIndex := 1 } .toggleShuffle).shuffledIndices ∧
    (audioReducer (fun _ => 0) { initialState with playlist := List.replicate 3 default, currentIndex := 1 } .toggleShuffle).shuffledIndices.length = 2 ∧
    (audioReducer (fun _ => 0) (audioReducer (fun _ => 0) { initialState with playlist := List.replicate 3 default, currentIndex := 1 } .toggleShuffle) .toggleShuffle).isShuffled = false ∧
    (audioReducer (fun _ => 0) (audioReducer (fun _ => 0) { initialState with playlist := List.replicate 3 default, currentIndex := 1 } .toggleShuffle) .toggleShuffle).shuffledIndices = [] :=
  ⟨(toggleShuffle_spec (fun _ => 0) { initialState with playlist := List.replicate 3 default, currentIndex := 1 } 1 (fun i => Nat.zero_le i) rfl rfl (by decide)).1.1,
   (toggleShuffle_spec (fun _ => 0) { initialState with playlist := List.replicate 3 default, currentIndex := 1 } 1 (fun i => Nat.zero_le i) rfl rfl (by decide)).1.2.2.1,
   (toggleShuffle_spec (fun _ => 0) { initialState with playlist := List.replicate 3 default, currentIndex := 1 } 1 (fun i => Nat.zero_le i) rfl rfl (by decide)).1.2.1,
   (toggleShuffle_spec (fun _ => 0) { initialState with playlist := List.replicate 3 default, currentIndex := 1 } 1 (fun i => Nat.zero_le i) rfl rfl (by decide)).2.1,
   (toggleShuffle_spec (fun _ => 0) { initialState with playlist := List.replicate 3 default, currentIndex := 1 } 1 (fun i => Nat.zero_le i) rfl rfl (by decide)).2.2⟩

end WebMusicPlayer

namespace WebMusicPlayer

/-! ## C10: removing a track touches only the playlist -/

/-- C10: for every state and track id, `removeFromPlaylist` changes only the
playlist field — keeping exactly the tracks whose id differs from the given
one, in their original relative order (the new playlist is the filtered
sublist of the old one) — and leaves the current track, current index,
playing flag, volume, times, loading flag, shuffle state and repeat mode
unchanged, even when the removed track is the currently playing one. -/
theorem removeFromPlaylist_frame (rand : Nat → Nat) (s : AudioState) (trackId : String) :
    (removeFromPlaylist rand s trackId).playlist
        = s.playlist.filter (fun t => t.id != trackId) ∧
    (∀ t ∈ (removeFromPlaylist rand s trackId).playlist, t.id ≠ trackId) ∧
    (removeFromPlaylist rand s trackId).playlist.Sublist s.playlist ∧
    (removeFromPlaylist rand s trackId).currentTrack = s.currentTrack ∧
    (removeFromPlaylist rand s trackId).currentIndex = s.currentIndex ∧
    (removeFromPlaylist rand s trackId).isPlaying = s.isPlaying ∧
    (removeFromPlaylist rand s trackId).currentTime = s.currentTime ∧
    (removeFromPlaylist rand s trackId).duration = s.duration ∧
    (removeFromPlaylist rand s trackId).volume = s.volume ∧
    (removeFromPlaylist rand s trackId).isLoading = s.isLoading ∧
    (removeFromPlaylist rand s trackId).isShuffled = s.isShuffled ∧
    (removeFromPlaylist rand s trackId).repeatMode = s.repeatMode ∧
    (removeFromPlaylist rand s trackId).shuffledIndices = s.shuffledIndices := by
  refine ⟨rfl, ?_, ?_, rfl, rfl, rfl, rfl, rfl, rfl, rfl, rfl, rfl, rfl⟩
  · intro t ht
    have hmem : t ∈ s.playlist.filter (fun t => t.id != trackId) := ht
    have := (List.mem_filter.mp hmem).2
    simpa using this
  · exact List.filter_sublist _

/-! ## C4: set-volume does not clamp -/

/-- C4 counterexample: the claim says `setVolume 1.5` clamps to `1.0` before
storing and applying; on the code, with a live Howl, the stored engine volume
and the volume applied to the Howl are both the raw `3/2`, not `1`. -/
theorem setVolume_no_clamp_counterexample :
    (setVolume (fun _ => 0) initialState
        (some { src := "track", format := Option.none, volume := 8/10, pos := 0 })
        (3/2)).1.volume = 3/2 ∧
    (setVolume (fun _ => 0) initialState
        (some { src := "track", format := Option.none, volume := 8/10, pos := 0 })
        (3/2)).2 = some { src := "track", format := Option.none, volume := 3/2, pos := 0 } ∧
    ¬ (setVolume (fun _ => 0) initialState
        (some { src := "track", format := Option.none, volume := 8/10, pos := 0 })
        (3/2)).1.volume = 1 := by
  refine ⟨rfl, rfl, ?_⟩
  intro h
  have h32 : (3/2 : ℚ) = 1 := h
  norm_num at h32

/-- C4 amended: `setVolume v` performs no clamping at all — it stores the raw
`v` as the engine volume and applies the same raw `v` to the live Howl when
one exists (so setting 1.5 stores and applies 1.5). -/
theorem setVolume_passthrough (rand : Nat → Nat) (s : AudioState) (h : Option Howl) (v : ℚ) :
    setVolume rand s h v
      = ({ s with volume := v }, h.map fun hw => { hw with volume := v }) := by
  cases h with
  | none => rfl
  | some hw => rfl

/-! ## C8: seeking also writes the displayed time -/

/-- C8 counterexample: the claim says `seekTo` does not itself update the
displayed current time; on the code, seeking to 5 with a live Howl moves the
stored `currentTime` from 0 to 5 in the very same operation. -/
theorem seekTo_updates_time_counterexample :
    (seekTo (fun _ => 0) initialState
        (some { src := "track", format := Option.none, volume := 8/10, pos := 0 })
        5).1.currentTime = 5 ∧
    ¬ (seekTo (fun _ => 0) initialState
        (some { src := "track", format := Option.none, volume := 8/10, pos := 0 })
        5).1.currentTime = initialState.currentTime := by
  refine ⟨rfl, ?_⟩
  intro h
  have h50 : (5 : ℚ) = 0 := h
  norm_num at h50

/-- C8 amended: with a live session, `seekTo t` delegates the position change
to the resource and additionally dispatches `t` itself as the displayed
current time; the position-polling loop also republishes the resource
position while playing, once the 250 ms gate opens. -/
theorem seekTo_spec (rand : Nat → Nat) (s : AudioState) (hw : Howl) (t ts lu : ℚ) :
    seekTo rand s (some hw) t
      = ({ s with currentTime := t }, some { hw with pos := t }) ∧
    (s.isPlaying = true → 250 ≤ ts - lu →
      updateTime rand s (some hw) ts lu = { s with currentTime := hw.pos }) := by
  refine ⟨rfl, ?_⟩
  intro hp hg
  simp only [updateTime]
  rw [if_pos hp, if_pos hg]
  rfl

/-- C8 amended witness: seeking to 5 while playing, and one gated polling
step republishing the Howl position 7. -/
theorem seekTo_spec_witness :
    seekTo (fun _ => 0) { initialState with isPlaying := true }
        (some { src := "t", format := Option.none, volume := 1, pos := 7 }) 5
      = ({ initialState with isPlaying := true, currentTime := 5 },
         some { src := "t", format := Option.none, volume := 1, pos := 5 }) ∧
    updateTime (fun _ => 0) { initialState with isPlaying := true }
        (some { src := "t", format := Option.none, volume := 1, pos := 7 }) 300 0
      = { initialState with isPlaying := true, currentTime := 7 } :=
  ⟨(seekTo_spec (fun _ => 0) { initialState with isPlaying := true }
      { src := "t", format := Option.none, volume := 1, pos := 7 } 5 300 0).1,
   (seekTo_spec (fun _ => 0) { initialState with isPlaying := true }
      { src := "t", format := Option.none, volume := 1, pos := 7 } 5 300 0).2
     rfl (by norm_num)⟩

/-! ## C5: resource-creation failure surfaces through the loaded callback -/

/-- C5: the `onload` callback is a total state transformer (no code path can
throw out of the component), and when the external provider delivers a
resource-creation failure as the terminal loaded event with no usable
duration (`loadFailureDurationQuery`, modelled from the spec because
Howler.js is outside this repository), the resulting state has duration 0 and
the loading flag cleared, with every other field unchanged — a non-fatal
empty player. -/
theorem loadFailure_spec (rand : Nat → Nat) (s : AudioState) :
    (onloadCallback rand s loadFailureDurationQuery).duration = 0 ∧
    (onloadCallback rand s loadFailureDurationQuery).isLoading = false ∧
    (onloadCallback rand s loadFailureDurationQuery).isPlaying = s.isPlaying ∧
    (onloadCallback rand s loadFailureDurationQuery).currentTrack = s.currentTrack ∧
    (onloadCallback rand s loadFailureDurationQuery).currentTime = s.currentTime ∧
    (onloadCallback rand s loadFailureDurationQuery).volume = s.volume ∧
    (onloadCallback rand s loadFailureDurationQuery).playlist = s.playlist ∧
    (onloadCallback rand s loadFailureDurationQuery).currentIndex = s.currentIndex ∧
    (onloadCallback rand s loadFailureDurationQuery).isShuffled = s.isShuffled ∧
    (onloadCallback rand s loadFailureDurationQuery).repeatMode = s.repeatMode ∧
    (onloadCallback rand s loadFailureDurationQuery).shuffledIndices = s.shuffledIndices :=
  ⟨rfl, rfl, rfl, rfl, rfl, rfl, rfl, rfl, rfl, rfl, rfl⟩

end WebMusicPlayer


namespace WebMusicPlayer

/-! ## C6: attaching the Signal Tap twice to the same session -/

/-- C6: `setupAudioAnalyser` is idempotent on an already-working attachment:
when the refs record the very session being attached together with a present
analyser node and a present media-element source node, the call succeeds
immediately and returns the state completely unchanged — in particular none
of the counters of created analysis contexts, analyser nodes or
media-element source nodes increases, for any environment behaviour. -/
theorem setupAudioAnalyser_idempotent (env : TapEnv) (st : TapState) (h : Nat)
    (hconn : st.connectedHowl = some h)
    (hana : st.analyser.isSome = true)
    (hsrc : st.sourceNode.isSome = true) :
    setupAudioAnalyser env st (some h) = (true, st) ∧
    (setupAudioAnalyser env st (some h)).2.createdContexts = st.createdContexts ∧
    (setupAudioAnalyser env st (some h)).2.createdAnalysers = st.createdAnalysers ∧
    (setupAudioAnalyser env st (some h)).2.createdSources = st.createdSources := by
  have hcond : st.connectedHowl = some h ∧ st.analyser.isSome = true ∧
      st.sourceNode.isSome = true := ⟨hconn, hana, hsrc⟩
  have hmain : setupAudioAnalyser env st (some h) = (true, st) := by
    show (if st.connectedHowl = some h ∧ st.analyser.isSome = true ∧
            st.sourceNode.isSome = true then ((true, st) : Bool × TapState)
          else _) = (true, st)
    exact if_pos hcond
  exact ⟨hmain, by rw [hmain], by rw [hmain], by rw [hmain]⟩

/-- C6 witness: a concrete working attachment to session 7 under a
failure-free environment. -/
theorem setupAudioAnalyser_idempotent_witness :
    setupAudioAnalyser
        { ctxCreationFails := false, resumeFails := false,
          createSourceFails := false, connectFails := false }
        { audioCtx := some 0, analyser := some 0, dataArray := some 256,
          sourceNode := some 0, connectedHowl := some 7,
          elems := fun _ => Option.none,
          createdContexts := 1, createdAnalysers := 1, createdSources := 1 }
        (some 7)
      = (true,
         { audioCtx := some 0, analyser := some 0, dataArray := some 256,
           sourceNode := some 0, connectedHowl := some 7,
           elems := fun _ => Option.none,
           createdContexts := 1, createdAnalysers := 1, createdSources := 1 }) :=
  (setupAudioAnalyser_idempotent
    { ctxCreationFails := false, resumeFails := false,
      createSourceFails := false, connectFails := false }
    { audioCtx := some 0, analyser := some 0, dataArray := some 256,
      sourceNode := some 0, connectedHowl := some 7,
      elems := fun _ => Option.none,
      createdContexts := 1, createdAnalysers := 1, createdSources := 1 }
    7 rfl rfl rfl).1

end WebMusicPlayer

namespace WebMusicPlayer

/-! ## C7: every visualization step paints 96 bars -/

theorem ofFn_getD {α : Type} [Inhabited α] {n : Nat} (f : Fin n → α) (i : Nat) (h : i < n) :
    (List.ofFn f).getD i default = f ⟨i, h⟩ := by
  rw [List.getD_eq_getElem _ _ (by simpa using h)]
  exact List.getElem_ofFn f i (by simpa using h)

/-- C7: whenever a canvas and a draw context are available, one
`drawFrequencyBars` step paints exactly 96 bars (never an empty frame), each
of width `(canvasWidth - 95·2)/96` with consecutive bars 2 units apart; the
real-data bar heights (normalized magnitude × 0.85 × canvas height) are used
precisely when the analyser, the data buffer and the source node are all
present, and otherwise every bar takes the synthetic pseudo-periodic height
(oscillator of elapsed time × 0.4 × canvas height). -/
theorem drawFrequencyBars_spec (osc : ℚ → ℚ) (st : DrawState) (now : ℚ) (cv : Canvas)
    (hcv : st.canvas = some cv) (hctx : st.ctx2d = true) :
    ∃ bars : List BarRect,
      drawFrequencyBars osc st now = some bars ∧
      bars.length = 96 ∧
      bars ≠ [] ∧
      (∀ i : Nat, i < 96 →
        (bars.getD i default).w = (cv.width - ((96 : ℚ) - 1) * 2) / 96) ∧
      (∀ i : Nat, i + 1 < 96 →
        (bars.getD (i + 1) default).x - (bars.getD i default).x
          = (cv.width - ((96 : ℚ) - 1) * 2) / 96 + 2) ∧
      ((st.analyser.isSome ∧ st.dataArray.isSome ∧ st.sourceNode.isSome) →
        ∀ i : Nat, i < 96 →
          (bars.getD i default).h
            = ((st.dataArray.getD []).getD (i * ((st.dataArray.getD []).length / 96)) 0 : ℚ)
                / 255 * cv.height * (85/100)) ∧
      (¬ (st.analyser.isSome ∧ st.dataArray.isSome ∧ st.sourceNode.isSome) →
        ∀ i : Nat, i < 96 →
          (bars.getD i default).h
            = (osc (now * (3/1000) + (i : ℚ) * (3/10)) * (1/2) + 1/2)
                * cv.height * (2/5)) := by
  obtain ⟨ocv, bctx, ana, da, src⟩ := st
  have hcv2 : ocv = some cv := hcv
  have hctx2 : bctx = true := hctx
  subst hcv2; subst hctx2
  by_cases hb : (ana.isSome && da.isSome && src.isSome) = true
  · refine ⟨List.ofFn (fun i : Fin 96 =>
      { x := (i.val : ℚ) * ((cv.width - ((96 : ℚ) - 1) * 2) / 96 + 2),
        w := (cv.width - ((96 : ℚ) - 1) * 2) / 96,
        h := ((da.getD []).getD (i.val * ((da.getD []).length / 96)) 0 : ℚ)
              / 255 * cv.height * (85/100) }),
      ?_, ?_, ?_, ?_, ?_, ?_, ?_⟩
    · show (if (ana.isSome && da.isSome && src.isSome) = true then _ else _) = _
      rw [if_pos hb]
      rfl
    · rw [List.length_ofFn]
    · exact List.length_pos.mp (by rw [List.length_ofFn]; norm_num)
    · intro i hi
      rw [ofFn_getD _ i hi]
    · intro i hi
      rw [ofFn_getD _ (i + 1) hi, ofFn_getD _ i (by omega)]
      show ((i + 1 : Nat) : ℚ) * _ - (i : ℚ) * _ = _
      push_cast
      ring
    · intro _ i hi
      rw [ofFn_getD _ i hi]
    · intro hF
      simp only [Bool.and_eq_true] at hb
      exact absurd ⟨hb.1.1, hb.1.2, hb.2⟩ hF
  · refine ⟨List.ofFn (fun i : Fin 96 =>
      { x := (i.val : ℚ) * ((cv.width - ((96 : ℚ) - 1) * 2) / 96 + 2),
        w := (cv.width - ((96 : ℚ) - 1) * 2) / 96,
        h := (osc (now * (3/1000) + (i.val : ℚ) * (3/10)) * (1/2) + 1/2)
              * cv.height * (2/5) }),
      ?_, ?_, ?_, ?_, ?_, ?_, ?_⟩
    · show (if (ana.isSome && da.isSome && src.isSome) = true then _ else _) = _
      rw [if_neg hb]
      rfl
    · rw [List.length_ofFn]
    · exact List.length_pos.mp (by rw [List.length_ofFn]; norm_num)
    · intro i hi
      rw [ofFn_getD _ i hi]
    · intro i hi
      rw [ofFn_getD _ (i + 1) hi, ofFn_getD _ i (by omega)]
      show ((i + 1 : Nat) : ℚ) * _ - (i : ℚ) * _ = _
      push_cast
      ring
    · intro hreal
      exact absurd (by simp [Bool.and_eq_true, hreal.1, hreal.2.1, hreal.2.2]) hb
    · intro _ i hi
      rw [ofFn_getD _ i hi]

/-- C7 witness: a detached 800×120 canvas (no analyser, no buffer, no source
node) still paints a full synthetic frame of 96 bars. -/
theorem drawFrequencyBars_spec_witness :
    ∃ bars : List BarRect,
      drawFrequencyBars (fun _ => 0)
        { canvas := some { width := 800, height := 120 }, ctx2d := true,
          analyser := Option.none, dataArray := Option.none,
          sourceNode := Option.none } 0 = some bars ∧
      bars.length = 96 ∧
      bars ≠ [] ∧
      (∀ i : Nat, i < 96 →
        (bars.getD i default).w
          = (({ width := 800, height := 120 } : Canvas).width - ((96 : ℚ) - 1) * 2) / 96) ∧
      (∀ i : Nat, i + 1 < 96 →
        (bars.getD (i + 1) default).x - (bars.getD i default).x
          = (({ width := 800, height := 120 } : Canvas).width - ((96 : ℚ) - 1) * 2) / 96 + 2) ∧
      ((Option.isSome (Option.none : Option Nat)
          ∧ Option.isSome (Option.none : Option (List Nat))
          ∧ Option.isSome (Option.none : Option Nat)) →
        ∀ i : Nat, i < 96 →
          (bars.getD i default).h
            = (((Option.none : Option (List Nat)).getD []).getD
                (i * (((Option.none : Option (List Nat)).getD []).length / 96)) 0 : ℚ)
                / 255 * ({ width := 800, height := 120 } : Canvas).height * (85/100)) ∧
      (¬ (Option.isSome (Option.none : Option Nat)
          ∧ Option.isSome (Option.none : Option (List Nat))
          ∧ Option.isSome (Option.none : Option Nat)) →
        ∀ i : Nat, i < 96 →
          (bars.getD i default).h
            = ((fun _ => (0 : ℚ)) ((0 : ℚ) * (3/1000) + (i : ℚ) * (3/10)) * (1/2) + 1/2)
                * ({ width := 800, height := 120 } : Canvas).height * (2/5)) :=
  drawFrequencyBars_spec (fun _ => 0)
    { canvas := some { width := 800, height := 120 }, ctx2d := true,
      analyser := Option.none, dataArray := Option.none, sourceNode := Option.none }
    0 { width := 800, height := 120 } rfl rfl

/-- C10 witness: removing id "b" from a two-track playlist keeps only the
other track and leaves the rest of the state alone. -/
theorem removeFromPlaylist_frame_witness :
    (removeFromPlaylist (fun _ => 0) { initialState with playlist := [{ (default : Track) with id := "a" }, { (default : Track) with id := "b" }], currentIndex := 1 } "b").playlist = [{ (default : Track) with id := "a" }, { (default : Track) with id := "b" }].filter (fun t => t.id != "b") ∧
    (removeFromPlaylist (fun _ => 0) { initialState with playlist := [{ (default : Track) with id := "a" }, { (default : Track) with id := "b" }], currentIndex := 1 } "b").currentIndex = 1 ∧
    (removeFromPlaylist (fun _ => 0) { initialState with playlist := [{ (default : Track) with id := "a" }, { (default : Track) with id := "b" }], currentIndex := 1 } "b").isShuffled = false :=
  ⟨(removeFromPlaylist_frame (fun _ => 0) { initialState with playlist := [{ (default : Track) with id := "a" }, { (default : Track) with id := "b" }], currentIndex := 1 } "b").1,
   (removeFromPlaylist_frame (fun _ => 0) { initialState with playlist := [{ (default : Track) with id := "a" }, { (default : Track) with id := "b" }], currentIndex := 1 } "b").2.2.2.2.1,
   (removeFromPlaylist_frame (fun _ => 0) { initialState with playlist := [{ (default : Track) with id := "a" }, { (default : Track) with id := "b" }], currentIndex := 1 } "b").2.2.2.2.2.2.2.2.2.2.1⟩

end WebMusicPlayer
